import Mathlib

/-!
# light: brightness curve and command line

A shallow embedding of `src/main.cc`.

Arithmetic conventions of the embedding

* A `float` is a real number.  Every floating-point operation of the source
  is the exact operation followed by the rounding `Arith.round`; `std::pow`
  and `std::log` are `Arith.pow` and `Arith.log`.  The arithmetic `A : Arith`
  is a parameter of the curve model.  `Arith.ideal` is exact arithmetic (no
  rounding, `Real.rpow`, `Real.log`): the theorems that describe the curve
  `y = k * a ^ x` are stated for it.  `Arith.Binary32` holds of an arithmetic
  whose rounded results are binary32 values, as on the machines the program
  runs on; what is proved under that hypothesis alone holds whatever the
  rounding mode and the accuracy of the mathematical library.
* Infinities and NaN are not values of the model: it agrees with IEEE
  arithmetic where every intermediate value is finite (logarithms of positive
  numbers, non-zero divisors).  The theorems carry the hypotheses that keep
  the program in that regime.
* `std::uint32_t` is a natural number; the conversion from `float` truncates
  toward zero and is taken modulo `2 ^ 32`.
* A number read from the command line is kept as the exact rational its
  decimal text denotes.
-/

namespace Light

/-! ## Numbers -/

/-- Conversion of a non-integer number to `std::uint32_t`: truncation toward
zero, modulo `2 ^ 32`. -/
def toUInt32 {α : Type} [LinearOrderedField α] [FloorRing α] (r : α) : ℕ :=
  ((if 0 ≤ r then ⌊r⌋ else ⌈r⌉) % 2 ^ 32).toNat

/-- Value of a `float` variable filled in by `std::from_chars`: a number
(kept exact), an infinity, or a NaN. -/
inductive FloatVal where
  | num (q : ℚ)
  | inf (neg : Bool)
  | nan
  deriving DecidableEq

/-- The assignment `conf.min_brightness = min_brightness` (float to
`std::uint32_t`).  For an infinity or a NaN the C++ result is unspecified;
the model gives `0`. -/
def FloatVal.toUInt32 : FloatVal → ℕ
  | .num q => Light.toUInt32 q
  | .inf _ => 0
  | .nan => 0

/-! ## Floating-point arithmetic -/

/-- The floating-point arithmetic the program runs on: `round` takes the
exact result of an operation (or of a conversion to `float`) to the `float`
that is stored, `pow` is `std::pow` and `log` is `std::log` on `float`s. -/
structure Arith where
  round : ℝ → ℝ
  pow : ℝ → ℝ → ℝ
  log : ℝ → ℝ

/-- Exact arithmetic: nothing is rounded, `std::pow` is the real power and
`std::log` the natural logarithm. -/
noncomputable def Arith.ideal : Arith where
  round := fun r => r
  pow := fun x y => x ^ y
  log := Real.log

/-- A binary32 value: an integer of fewer than 25 bits times a power of two
(zero included; the exponent range is left open). -/
def IsBinary32 (r : ℝ) : Prop :=
  ∃ m e : ℤ, |m| < 2 ^ 24 ∧ r = (m : ℝ) * (2 : ℝ) ^ e

/-- An arithmetic whose rounded results are all binary32 values. -/
def Arith.Binary32 (A : Arith) : Prop :=
  ∀ r : ℝ, IsBinary32 (A.round r)

/-- Rounding toward zero to 24 significant bits. -/
noncomputable def roundTowardZero (r : ℝ) : ℝ :=
  if 0 ≤ r then (⌊r / (2 : ℝ) ^ (Int.log 2 r - 23)⌋ : ℝ) * (2 : ℝ) ^ (Int.log 2 r - 23)
  else -((⌊-r / (2 : ℝ) ^ (Int.log 2 (-r) - 23)⌋ : ℝ) * (2 : ℝ) ^ (Int.log 2 (-r) - 23))

/-- An arithmetic with 24-bit significands: every operation is the exact
one, rounded toward zero. -/
noncomputable def Arith.towardZero : Arith where
  round := roundTowardZero
  pow := fun x y => roundTowardZero (x ^ y)
  log := fun x => roundTowardZero (Real.log x)

/-! ## The curve: `scale`, `operator()`, `reverse` -/

/-- The anonymous struct returned by `scale`: the coefficients of
`y = k * a ^ x`. -/
structure Curve where
  k : ℝ
  a : ℝ

/-- `scale(domain, range)`, lines 40-61.  The two range endpoints are
converted to `float` by the initialisation of `y1` and `y2`. -/
noncomputable def scale (A : Arith) (domain : ℝ × ℝ) (range : ℕ × ℕ) : Curve :=
  let x1 : ℝ := domain.1
  let x2 : ℝ := domain.2
  let y1 : ℝ := A.round range.1
  let y2 : ℝ := A.round range.2
  { k := A.round (A.pow y2 (A.round (x1 / A.round (x1 - x2)))
                  * A.pow y1 (A.round (x2 / A.round (x2 - x1))))
    a := A.pow (A.round (y1 / y2)) (A.round (1 / A.round (x1 - x2))) }

/-- The `float` expression `k * std::pow(a, x)` of `operator()`, before the
conversion to `std::uint32_t`. -/
noncomputable def Curve.value (f : Curve) (A : Arith) (x : ℝ) : ℝ :=
  A.round (f.k * A.pow f.a x)

/-- `operator()(float x) -> std::uint32_t`, lines 53-55 (the spec's
`forward`). -/
noncomputable def Curve.forward (f : Curve) (A : Arith) (x : ℝ) : ℕ :=
  toUInt32 (f.value A x)

/-- The expression `std::log(y / k) / std::log(a)` of `reverse`, at a `float`
argument. -/
noncomputable def Curve.reverse_at (f : Curve) (A : Arith) (y : ℝ) : ℝ :=
  A.round (A.log (A.round (y / f.k)) / A.log f.a)

/-- `reverse(std::uint32_t y) -> float`, lines 56-58: `y` is converted to
`float` for the division `y / k`. -/
noncomputable def Curve.reverse (f : Curve) (A : Arith) (y : ℕ) : ℝ :=
  f.reverse_at A (A.round y)

/-! ## The device and `change` -/

/-- The two files of a device directory, as `read_dev` reads them. -/
structure Device where
  brightness : ℕ
  max_brightness : ℕ

/-- Line 85: `x = x < 0 ? 0 : x > 100 ? 100 : x`. -/
noncomputable def clamp (x : ℝ) : ℝ :=
  if x < 0 then 0 else if x > 100 then 100 else x

/-- `change(dev_path, val, min_brightness)`, lines 79-97: the device after
the write of `f(x)` to its `brightness` file. -/
noncomputable def change (A : Arith) (dev : Device) (val : ℝ) (min_brightness : ℕ) : Device :=
  let f := scale A (0, 100) (min_brightness, dev.max_brightness)
  let x := A.round (f.reverse A dev.brightness + val)
  let x := clamp x
  { dev with brightness := f.forward A x }

/-! ## `std::from_chars` for `float` -/

/-- The `std::errc` values `std::from_chars` reports on failure. -/
inductive Errc where
  | invalid_argument
  | result_out_of_range
  deriving DecidableEq

/-- What the pattern of `std::from_chars` matched at the start of the text. -/
inductive Scanned where
  | decimal (neg : Bool) (mantissa : ℕ) (exponent : ℤ)
  | infinity (neg : Bool)
  | notanumber
  deriving DecidableEq

/-- Value of a run of decimal digits. -/
def digitsVal (ds : List Char) : ℕ :=
  ds.foldl (fun n c => 10 * n + (c.toNat - 48)) 0

/-- Does `cs` start with the lower-case word `kw`, letter case ignored? -/
def startsWithCI (kw cs : List Char) : Bool :=
  decide (kw.length ≤ cs.length) && ((cs.take kw.length).map Char.toLower == kw)

/-- The exponent part `e[+-]digits` at the start of `cs`, `0` when there is
none (an `e` that no digit follows is not part of the number). -/
def scanExponent (cs : List Char) : ℤ :=
  match cs with
  | c :: t =>
    if c = 'e' ∨ c = 'E' then
      match t with
      | '-' :: u => -(digitsVal (u.takeWhile Char.isDigit) : ℤ)
      | '+' :: u => (digitsVal (u.takeWhile Char.isDigit) : ℤ)
      | u => (digitsVal (u.takeWhile Char.isDigit) : ℤ)
    else 0
  | [] => 0

/-- The longest prefix of the text that is a number in the format
`std::from_chars` reads with `std::chars_format::general`: an optional minus
sign, then `inf`, `infinity`, `nan` (any letter case) or decimal digits with
an optional point and an optional exponent.  No leading blank and no plus
sign is accepted; `none` when no prefix matches. -/
def scanFloat (cs : List Char) : Option Scanned :=
  let neg : Bool := cs.head? = some '-'
  let body : List Char := if neg then cs.tail else cs
  if startsWithCI ['i', 'n', 'f'] body then some (.infinity neg)
  else if startsWithCI ['n', 'a', 'n'] body then some .notanumber
  else
    let ip := body.takeWhile Char.isDigit
    let r1 := body.dropWhile Char.isDigit
    let fp := if r1.head? = some '.' then r1.tail.takeWhile Char.isDigit else []
    let r2 := if r1.head? = some '.' then r1.tail.dropWhile Char.isDigit else r1
    if ip = [] ∧ fp = [] then none
    else some (.decimal neg (digitsVal (ip ++ fp)) (scanExponent r2 - fp.length))

/-- `std::from_chars(first, last, value)` for a `float`: the error code, or
the value stored.  The matched prefix may be shorter than the text; the end
pointer it returns is not part of the model because `parse_conf` never looks
at it.  A number that rounds to an infinity or, being non-zero, to zero is
out of range. -/
def from_chars (sv : String) : Except Errc FloatVal :=
  match scanFloat sv.toList with
  | none => .error .invalid_argument
  | some (.infinity neg) => .ok (.inf neg)
  | some .notanumber => .ok .nan
  | some (.decimal neg m e) =>
    let q : ℚ := (if neg then -1 else 1) * (m : ℚ) * 10 ^ e
    if q ≠ 0 ∧ (|q| ≤ 2 ^ (-150 : ℤ) ∨ 2 ^ 128 - 2 ^ 103 ≤ |q|) then
      .error .result_out_of_range
    else .ok (.num q)

/-! ## `parse_conf`, `app`, `main` -/

/-- The usage text, lines 16-25. -/
def help : String :=
  "Usage:\n" ++
  "  light [OPT] [ARGS]\n" ++
  "Options:\n" ++
  "  -C          [dev] Print brightness\n" ++
  "  -M          [dev] Print maximum brightness\n" ++
  "  -I          [dev] [val] [min_brightness] Increase brightness by percentage\n" ++
  "  -D          [dev] [val] [min_brightness] Decrease brightness by percentage\n" ++
  "  --help, -h  Print this help and exit\n"

/-- The anonymous enum of `conf::type`. -/
inductive ConfType where
  | inc | dec | brightness | max_brightness | help
  deriving DecidableEq

/-- `struct conf`, lines 27-34.  A field `parse_conf` has not assigned is
`none` (`dev_path` is default-constructed, the empty path). -/
structure Conf where
  dev_path : String := ""
  value : Option FloatVal := none
  min_brightness : Option ℕ := none
  type : Option ConfType := none
  deriving DecidableEq

/-- How a call of `parse_conf` ends: it returns a `conf`, it calls
`std::exit(code)` after writing `err` to standard error, or its behaviour is
undefined (`args[1]` read from an empty argument vector). -/
inductive Outcome where
  | returned (conf : Conf)
  | exited (code : ℕ) (err : String)
  | undefined
  deriving DecidableEq

/-- The lambda `parse_number`, lines 159-164: the value stored, or the
diagnostic written before `std::exit(1)`. -/
def parse_number (sv : String) : Except String FloatVal :=
  match from_chars sv with
  | .ok v => .ok v
  | .error _ => .error ("Cannot parse number from " ++ sv ++ "\n")

/-- `parse_conf(args)`, lines 120-184. -/
def parse_conf (args : List String) : Outcome :=
  let conf : Conf := {}
  if args.length = 0 then .undefined
  else if args.length = 1 then .returned { conf with type := some .help }
  else
    let opt := args.getD 1 ""
    if opt = "-h" ∨ opt = "--help" then .returned { conf with type := some .help }
    else if args.length < 3 then .exited 1 "Not enough arguments.\n"
    else
      let conf := { conf with dev_path := args.getD 2 "" }
      if opt = "-C" then .returned { conf with type := some .brightness }
      else if opt = "-M" then .returned { conf with type := some .max_brightness }
      else if args.length < 5 then .exited 1 "Not enough arguments.\n"
      else
        match parse_number (args.getD 3 "") with
        | .error err => .exited 1 err
        | .ok val =>
          match parse_number (args.getD 4 "") with
          | .error err => .exited 1 err
          | .ok min_brightness =>
            let conf := { conf with value := some val,
                                    min_brightness := some min_brightness.toUInt32 }
            if opt = "-I" then .returned { conf with type := some .inc }
            else if opt = "-D" then .returned { conf with type := some .dec }
            else .exited 1 "Unexpected option"

/-- One run of the program: exit code, what went to standard output and to
standard error, and the device directory afterwards. -/
structure Run where
  exit_code : ℕ
  out : String
  err : String
  dev : Device

/-- `app(conf)`, lines 99-117, on the device directory at `conf.dev_path`.
The delta is rounded to the `float` that `conf.value` holds.  `none` where
the model does not say what the program does: a field read before it was
assigned, or a delta that is not a finite number. -/
noncomputable def app (A : Arith) (conf : Conf) (dev : Device) : Option Run :=
  match conf.type with
  | some .help => some { exit_code := 0, out := help, err := "", dev := dev }
  | some .max_brightness =>
    some { exit_code := 0, out := toString dev.max_brightness ++ "\n", err := "", dev := dev }
  | some .brightness =>
    some { exit_code := 0, out := toString dev.brightness ++ "\n", err := "", dev := dev }
  | some .inc =>
    match conf.value, conf.min_brightness with
    | some (.num q), some m => some { exit_code := 0, out := "", err := "", dev := change A dev (A.round q) m }
    | _, _ => none
  | some .dec =>
    match conf.value, conf.min_brightness with
    | some (.num q), some m => some { exit_code := 0, out := "", err := "", dev := change A dev (-(A.round q)) m }
    | _, _ => none
  | none => none

/-- `main(argc, argv)`, lines 186-190: `app` runs only on a `conf` that
`parse_conf` returned; `std::exit` ends the run with the device untouched. -/
noncomputable def main (A : Arith) (args : List String) (dev : Device) : Option Run :=
  match parse_conf args with
  | .returned conf => app A conf dev
  | .exited code err => some { exit_code := code, out := "", err := err, dev := dev }
  | .undefined => none

/-! ## Conversion to `std::uint32_t` -/

theorem toUInt32_eq_floor {α : Type} [LinearOrderedField α] [FloorRing α] (r : α)
    (h0 : 0 ≤ r) (h1 : r < 2 ^ 32) : toUInt32 r = ⌊r⌋₊ := by
  unfold toUInt32
  rw [if_pos h0]
  have hf0 : 0 ≤ ⌊r⌋ := Int.floor_nonneg.mpr h0
  have hf1 : ⌊r⌋ < 2 ^ 32 := by
    rw [Int.floor_lt]
    exact_mod_cast h1
  rw [Int.emod_eq_of_lt hf0 hf1, Int.floor_toNat]

theorem toUInt32_natCast {α : Type} [LinearOrderedField α] [FloorRing α] (m : ℕ)
    (hm : m < 2 ^ 32) : toUInt32 (m : α) = m := by
  rw [toUInt32_eq_floor (m : α) (Nat.cast_nonneg m) (by exact_mod_cast hm), Nat.floor_natCast]

theorem floor_scaled_lt {r : ℝ} (h0 : 0 ≤ r) :
    |⌊r / (2 : ℝ) ^ (Int.log 2 r - 23)⌋| < 2 ^ 24 := by
  have hp : (0 : ℝ) < (2 : ℝ) ^ (Int.log 2 r - 23) := zpow_pos (by norm_num) _
  have hnn : 0 ≤ ⌊r / (2 : ℝ) ^ (Int.log 2 r - 23)⌋ := Int.floor_nonneg.mpr (div_nonneg h0 hp.le)
  rw [abs_of_nonneg hnn, Int.floor_lt]
  rw [div_lt_iff₀ hp]
  have hlt : r < ((2 : ℕ) : ℝ) ^ (Int.log 2 r + 1) := Int.lt_zpow_succ_log_self (by norm_num) r
  have e : ((2 ^ 24 : ℤ) : ℝ) * (2 : ℝ) ^ (Int.log 2 r - 23) = (2 : ℝ) ^ (Int.log 2 r + 1) := by
    have : ((2 ^ 24 : ℤ) : ℝ) = (2 : ℝ) ^ (24 : ℤ) := by norm_num
    rw [this, ← zpow_add₀ (by norm_num)]
    congr 1
    ring
  rw [e]
  exact_mod_cast hlt

theorem roundTowardZero_binary32 (r : ℝ) : IsBinary32 (roundTowardZero r) := by
  unfold roundTowardZero
  split_ifs with h0
  · exact ⟨_, _, floor_scaled_lt h0, rfl⟩
  · have h0' : 0 ≤ -r := by linarith
    refine ⟨-⌊-r / (2 : ℝ) ^ (Int.log 2 (-r) - 23)⌋, Int.log 2 (-r) - 23, ?_, ?_⟩
    · rw [abs_neg]
      exact floor_scaled_lt h0'
    · push_cast
      ring

theorem Arith.towardZero_binary32 : Arith.towardZero.Binary32 :=
  fun r => roundTowardZero_binary32 r

/-! ## The exact curve -/

theorem Curve.value_pos (f : Curve) (hk : 0 < f.k) (ha : 0 < f.a) (x : ℝ) : 0 < f.value .ideal x :=
  mul_pos hk (Real.rpow_pos_of_pos ha x)

theorem change_max_brightness (dev : Device) (val : ℝ) (m : ℕ) :
    (change .ideal dev val m).max_brightness = dev.max_brightness := rfl

theorem diagnostic_ne_empty (sv : String) :
    "Cannot parse number from " ++ sv ++ "\n" ≠ "" := by
  intro h
  have hl := congrArg String.length h
  simp only [String.length_append] at hl
  have h0 : "\n".length = 1 := by decide
  have h1 : "".length = 0 := by decide
  omega

theorem parse_number_error_ne_empty {sv err : String}
    (h : parse_number sv = .error err) : err ≠ "" := by
  unfold parse_number at h
  split at h
  · cases h
  · cases h
    exact diagnostic_ne_empty sv

theorem main_of_exited (A : Arith) {args : List String} {code : ℕ} {err : String}
    (h : parse_conf args = .exited code err) (dev : Device) :
    main A args dev = some { exit_code := code, out := "", err := err, dev := dev } := by
  simp [main, h]

/-- C7: an argument vector with an option that is none of `-h`, `--help`,
`-C`, `-M`, `-I`, `-D` makes `parse_conf` exit with code 1 after a non-empty
diagnostic on standard error; no `conf` is returned, so `main` never runs
`app` and the device is left as it was, in every arithmetic. -/
theorem parse_conf_unrecognized_option (A : Arith) (args : List String)
    (hlen : 2 ≤ args.length)
    (hopt : args.getD 1 "" ∉ ["-h", "--help", "-C", "-M", "-I", "-D"]) :
    ∃ err, err ≠ "" ∧ parse_conf args = .exited 1 err ∧
      ∀ dev, main A args dev = some { exit_code := 1, out := "", err := err, dev := dev } := by
  simp only [List.mem_cons, List.mem_singleton, not_or, List.not_mem_nil, not_false_eq_true,
    and_true] at hopt
  obtain ⟨h1, h2, h3, h4, h5, h6⟩ := hopt
  have key : ∃ err, err ≠ "" ∧ parse_conf args = .exited 1 err := by
    unfold parse_conf
    have l0 : ¬ args.length = 0 := by omega
    have l1 : ¬ args.length = 1 := by omega
    simp only [l0, l1, if_false, h1, h2, h3, h4, h5, h6, or_self]
    by_cases l3 : args.length < 3
    · exact ⟨"Not enough arguments.\n", by decide, by simp [l3]⟩
    · by_cases l5 : args.length < 5
      · exact ⟨"Not enough arguments.\n", by decide, by simp [l3, l5]⟩
      · simp only [l3, l5, if_false]
        cases hv : parse_number (args.getD 3 "") with
        | error e => exact ⟨e, parse_number_error_ne_empty hv, rfl⟩
        | ok v =>
          cases hm : parse_number (args.getD 4 "") with
          | error e => exact ⟨e, parse_number_error_ne_empty hm, rfl⟩
          | ok m => exact ⟨"Unexpected option", by decide, rfl⟩
  obtain ⟨err, hne, hp⟩ := key
  exact ⟨err, hne, hp, main_of_exited A hp⟩

/-- C7 at `light --frob dev 20 10`. -/
theorem parse_conf_unrecognized_option_witness :
    ∃ err, err ≠ "" ∧ parse_conf ["light", "--frob", "dev", "20", "10"] = .exited 1 err ∧
      ∀ dev, main .towardZero ["light", "--frob", "dev", "20", "10"] dev
        = some { exit_code := 1, out := "", err := err, dev := dev } :=
  parse_conf_unrecognized_option .towardZero ["light", "--frob", "dev", "20", "10"] (by decide) (by decide)

/-- C8: `-C` or `-M` without a device, and `-I` or `-D` with fewer than five
elements in the argument vector, make `parse_conf` exit with code 1 after the
diagnostic `Not enough arguments.`; no `conf` is returned, so `main` never
runs `app` and the device is left as it was, in every arithmetic. -/
theorem parse_conf_missing_arguments (A : Arith) (args : List String)
    (hlen : 2 ≤ args.length)
    (hmiss : ((args.getD 1 "" = "-C" ∨ args.getD 1 "" = "-M") ∧ args.length < 3) ∨
             ((args.getD 1 "" = "-I" ∨ args.getD 1 "" = "-D") ∧ args.length < 5)) :
    parse_conf args = .exited 1 "Not enough arguments.\n" ∧
      ∀ dev, main A args dev
        = some { exit_code := 1, out := "", err := "Not enough arguments.\n", dev := dev } := by
  have key : parse_conf args = .exited 1 "Not enough arguments.\n" := by
    unfold parse_conf
    have l0 : ¬ args.length = 0 := by omega
    have l1 : ¬ args.length = 1 := by omega
    simp only [l0, l1, if_false]
    generalize args.getD 1 "" = opt at hmiss ⊢
    rcases hmiss with ⟨ho, hl⟩ | ⟨ho, hl⟩
    · rcases ho with ho | ho <;> subst ho <;> simp [hl]
    · by_cases l3 : args.length < 3
      · rcases ho with ho | ho <;> subst ho <;> simp [l3]
      · rcases ho with ho | ho <;> subst ho <;> simp [l3, hl]
  exact ⟨key, main_of_exited A key⟩

/-- C8 at `light -I dev`, the spec's scenario. -/
theorem parse_conf_missing_arguments_witness :
    parse_conf ["light", "-I", "dev"] = .exited 1 "Not enough arguments.\n" ∧
      ∀ dev, main .towardZero ["light", "-I", "dev"] dev
        = some { exit_code := 1, out := "", err := "Not enough arguments.\n", dev := dev } :=
  parse_conf_missing_arguments .towardZero ["light", "-I", "dev"] (by decide) (by decide)

/-! ## Command line: numbers with trailing text -/

theorem from_chars_of_scan_nat (sv : String) (m : ℕ)
    (h : scanFloat sv.toList = some (.decimal false m 0)) (hm : m < 2 ^ 64) :
    from_chars sv = .ok (.num m) := by
  unfold from_chars
  rw [h]
  have hq : ((if false = true then (-1 : ℚ) else 1) * (m : ℚ) * 10 ^ (0 : ℤ)) = (m : ℚ) := by
    norm_num
  simp only [hq]
  have habs : |(m : ℚ)| = (m : ℚ) := abs_of_nonneg (Nat.cast_nonneg m)
  have hlt : (m : ℚ) < 2 ^ 64 := by exact_mod_cast hm
  rw [if_neg]
  rintro ⟨hne, hle | hge⟩
  · rw [habs] at hle
    have hpos : (1 : ℚ) ≤ m := by
      have : m ≠ 0 := by
        intro h0
        apply hne
        simp [h0]
      exact_mod_cast Nat.one_le_iff_ne_zero.mpr this
    have : (2 : ℚ) ^ (-150 : ℤ) < 1 := by norm_num
    linarith
  · rw [habs] at hge
    norm_num at hge
    linarith


/-- C9, the code at the failing inputs: a percentage or a minimum brightness
that starts with digits and goes on with other text (`12abc`) is read as the
number the digits spell, and `parse_conf` returns a `conf` built from it; a
text with no leading number (`abc`) ends in the error outcome. -/
theorem parse_conf_number_with_trailing_text :
    parse_conf ["light", "-I", "dev", "12abc", "5"]
        = .returned { dev_path := "dev", value := some (.num 12),
                      min_brightness := some 5, type := some .inc } ∧
    parse_conf ["light", "-D", "dev", "20", "12abc"]
        = .returned { dev_path := "dev", value := some (.num 20),
                      min_brightness := some 12, type := some .dec } ∧
    parse_conf ["light", "-I", "dev", "abc", "5"]
        = .exited 1 "Cannot parse number from abc\n" := by
  have s1 : from_chars "12abc" = .ok (.num 12) := by
    simpa using from_chars_of_scan_nat "12abc" 12 (by decide) (by norm_num)
  have s2 : from_chars "5" = .ok (.num 5) := by
    simpa using from_chars_of_scan_nat "5" 5 (by decide) (by norm_num)
  have s3 : from_chars "20" = .ok (.num 20) := by
    simpa using from_chars_of_scan_nat "20" 20 (by decide) (by norm_num)
  have s4 : from_chars "abc" = .error .invalid_argument := by
    have : scanFloat "abc".toList = none := by decide
    unfold from_chars
    rw [this]
  have u5 : toUInt32 (5 : ℚ) = 5 := by
    simpa using toUInt32_natCast (α := ℚ) 5 (by norm_num)
  have u12 : toUInt32 (12 : ℚ) = 12 := by
    simpa using toUInt32_natCast (α := ℚ) 12 (by norm_num)
  refine ⟨?_, ?_, ?_⟩
  · simp [parse_conf, parse_number, s1, s2, FloatVal.toUInt32, u5]
  · simp [parse_conf, parse_number, s1, s3, FloatVal.toUInt32, u12]
  · simp [parse_conf, parse_number, s4]

/-! ## C10: a zero delta -/

end Light
